import Mathlib

/-!
Verification development for the farterrogator repository.

The development shallowly embeds the backend-orchestration and
result-processing pipeline of the application:

- the tag category service (src/services/tagService.ts),
- the two interrogation strategies and their dispatcher
  (the service module with generateTags, fetchLocalTags,
  fetchOllamaDescription, generateTagsLocalHybrid, generateTagsGemini),
- the presentation pipeline of the Results component
  (src/components/Results.tsx: processedTags, formatTag, tagString).

JavaScript numbers that carry tag confidence scores are modelled as
rationals.  Network interactions are modelled by passing the outcome of
each request explicitly and by returning the list of network calls a
function issues, so that statements about which calls happen (and in
which situations none happen) can be proved.  String helpers of the
JavaScript runtime that the code uses (split, trim, replace with a
single-character pattern) are modelled by structurally recursive
functions on the character list of a string so that all definitions
evaluate inside the kernel.
-/

namespace Farterrogator

/-! ## Data model

Reconstructed from the shape used across the source files: the union of
the category strings produced by tagService (general, artist, copyright,
character, meta, rating) and the category strings of the Gemini response
schema and the Results component (general, character, style, technical,
rating). -/

inductive TagCategory where
  | general
  | artist
  | copyright
  | character
  | meta
  | rating
  | style
  | technical
deriving DecidableEq, Repr

/-- The six category values named by the specification data model. -/
def sixCategories : List TagCategory :=
  [TagCategory.general, TagCategory.artist, TagCategory.copyright,
   TagCategory.character, TagCategory.meta, TagCategory.rating]

structure Tag where
  name : String
  score : ℚ
  category : TagCategory
deriving DecidableEq, Repr

structure InterrogationResult where
  tags : List Tag
  naturalDescription : Option String := none
deriving DecidableEq, Repr

inductive BackendType where
  | gemini
  | local_hybrid
deriving DecidableEq, Repr

structure BackendConfig where
  type : BackendType
  geminiApiKey : String := ""
  taggerEndpoint : String := ""
  ollamaEndpoint : String := ""
  ollamaModel : String := ""
deriving DecidableEq, Repr

/-! ## JavaScript string helpers

Structurally recursive models of the string operations the source relies
on, so that every definition below evaluates by kernel reduction. -/

/-- Model of the JavaScript split method with a one-character separator:
splitting the empty string yields one empty field, and every separator
occurrence starts a new field. -/
def splitCharAux (sep : Char) : List Char → List Char → List String
  | [], acc => [String.mk acc.reverse]
  | c :: cs, acc =>
      if c = sep then String.mk acc.reverse :: splitCharAux sep cs []
      else splitCharAux sep cs (c :: acc)

def splitOnChar (sep : Char) (s : String) : List String :=
  splitCharAux sep s.data []

/-- Model of the JavaScript trim method: drop whitespace from both ends. -/
def jsTrim (s : String) : String :=
  String.mk (((s.data.dropWhile Char.isWhitespace).reverse.dropWhile
    Char.isWhitespace).reverse)

/-- Model of the JavaScript truthiness test used on endpoint and key
strings: a string field is missing when it is empty or blank, matching
the source pattern (not value or value.trim() equal to the empty
string). -/
def isBlank (s : String) : Bool :=
  s = "" || jsTrim s = ""

/-- Model of startsWith on strings. -/
def jsStartsWith (s pre : String) : Bool :=
  pre.data.isPrefixOf s.data

/-- Model of the JavaScript parseInt applied to a radix-10 field: skip
leading whitespace, read an optional sign and then the longest digit
prefix; none when no digit is found (parseInt returns NaN there). -/
def natOfDigits (ds : List Char) : Nat :=
  ds.foldl (fun acc c => acc * 10 + (c.toNat - 48)) 0

def digitPrefixVal (cs : List Char) : Option Int :=
  match cs.takeWhile Char.isDigit with
  | [] => none
  | ds => some (Int.ofNat (natOfDigits ds))

def jsParseInt (s : String) : Option Int :=
  match (jsTrim s).data with
  | '-' :: rest => (digitPrefixVal rest).map (fun n => -n)
  | '+' :: rest => digitPrefixVal rest
  | cs => digitPrefixVal cs

/-! ## Tag category service (src/services/tagService.ts) -/

/-- The CATEGORY_MAPPING record of tagService: numeric danbooru category
ids to category values; ids outside the record are absent. -/
def CATEGORY_MAPPING (id : Int) : Option TagCategory :=
  if id = 0 then some TagCategory.general
  else if id = 1 then some TagCategory.artist
  else if id = 3 then some TagCategory.copyright
  else if id = 4 then some TagCategory.character
  else if id = 5 then some TagCategory.meta
  else if id = 9 then some TagCategory.rating
  else none

/-- Module state of tagService: the name to category map and the isLoaded
flag. The JavaScript Map is modelled as an association list with
overwrite-on-set semantics. -/
structure TagServiceState where
  tagDatabase : List (String × TagCategory)
  isLoaded : Bool
deriving DecidableEq, Repr

def initialTagServiceState : TagServiceState :=
  { tagDatabase := [], isLoaded := false }

/-- Map.set: overwrite the entry when the key is present, else append. -/
def mapSet (m : List (String × TagCategory)) (k : String) (v : TagCategory) :
    List (String × TagCategory) :=
  if m.any (fun p => p.1 = k) then
    m.map (fun p => if p.1 = k then (k, v) else p)
  else m ++ [(k, v)]

/-- Map.get: first entry with the key (keys are unique under mapSet). -/
def mapGet (m : List (String × TagCategory)) (k : String) :
    Option TagCategory :=
  (m.find? (fun p => p.1 = k)).map Prod.snd

/-- One iteration of the line loop of loadTagDatabase: trim the line,
skip it when empty, split on commas, and when at least two fields are
present store field 0 under the category obtained by sending field 1
through parseInt and CATEGORY_MAPPING, defaulting to general. -/
def parseTagLine (db : List (String × TagCategory)) (line : String) :
    List (String × TagCategory) :=
  let l := jsTrim line
  if l = "" then db
  else
    let parts := splitOnChar ',' l
    if parts.length ≥ 2 then
      let name := parts.headD ""
      let category :=
        ((jsParseInt (parts.getD 1 "")).bind CATEGORY_MAPPING).getD
          TagCategory.general
      mapSet db name category
    else db

/-- Body of the try block of loadTagDatabase: a failed fetch (transport
failure or a non-ok response) throws; a successful fetch parses every
line of the text into the database and sets isLoaded. -/
def loadTagDatabaseBody (st : TagServiceState) (net : Option String) :
    Except String TagServiceState :=
  match net with
  | none => Except.error "Failed to load tag database"
  | some text =>
      Except.ok
        { tagDatabase := (splitOnChar '\n' text).foldl parseTagLine st.tagDatabase,
          isLoaded := true }

/-- loadTagDatabase: return immediately when already loaded, otherwise
run the body; the catch block only logs, so a failure leaves the state
unchanged and is never rethrown. The network outcome is passed
explicitly: none models a failed fetch of the csv file. -/
def loadTagDatabase (st : TagServiceState) (net : Option String) :
    Except String TagServiceState :=
  if st.isLoaded then Except.ok st
  else
    match loadTagDatabaseBody st net with
    | Except.error _ => Except.ok st
    | Except.ok st2 => Except.ok st2

def ratingTokens : List String :=
  ["general", "safe", "questionable", "explicit", "sensitive", "nsfw"]

def metaTokens : List String :=
  ["highres", "absurdres", "4k", "8k", "masterpiece", "best quality",
   "comic", "monochrome", "greyscale", "lowres", "bad quality",
   "worst quality"]

def countTokens : List String :=
  ["1girl", "1boy", "2girls", "2boys", "multiple girls", "multiple boys"]

/-- The heuristic fallback chain of getCategory, in source order. -/
def heuristicCategory (tagName : String) : TagCategory :=
  if jsStartsWith tagName "rating:" || ratingTokens.contains tagName then
    TagCategory.rating
  else if metaTokens.contains tagName then TagCategory.meta
  else if countTokens.contains tagName then TagCategory.general
  else TagCategory.general

/-- getCategory: exact database match wins, otherwise the heuristics. -/
def getCategory (st : TagServiceState) (tagName : String) : TagCategory :=
  match mapGet st.tagDatabase tagName with
  | some c => c
  | none => heuristicCategory tagName

/-! ## Interrogation strategies (the geminiService module)

Each network request is modelled by an explicit outcome argument:
FetchOutcome.failure covers a transport error or a non-2xx response
(both throw in the source), FetchOutcome.ok carries the decoded
response body. Every function returns, next to its result, the list of
network calls it issued. -/

inductive NetCall where
  | taggerPost (endpoint : String)
  | ollamaGenerate (endpoint : String)
  | geminiGenerate
deriving DecidableEq, Repr

instance {ε α : Type} [DecidableEq ε] [DecidableEq α] :
    DecidableEq (Except ε α) := fun x y =>
  match x, y with
  | Except.error a, Except.error b => decidable_of_iff (a = b) (by simp)
  | Except.error _, Except.ok _ => isFalse (fun h => Except.noConfusion h)
  | Except.ok _, Except.error _ => isFalse (fun h => Except.noConfusion h)
  | Except.ok a, Except.ok b => decidable_of_iff (a = b) (by simp)

inductive FetchOutcome (α : Type) where
  | failure
  | ok (v : α)
deriving DecidableEq, Repr

/-- Decoded body of the local tagger response. The source reads only the
tags field (a map of tag name to confidence); the tag_string field is
ignored by the code and is omitted here. A missing tags field is modelled
by none. -/
structure TaggerResponse where
  tags : Option (List (String × ℚ))
deriving DecidableEq, Repr

/-- Relation of the score-descending sort comparator ((a, b) => b.score -
a.score) of the source: a precedes b when b.score ≤ a.score. The sort is
modelled by insertion sort; tie order of the JavaScript stable sort is
not relied on by any claim. -/
def scoreDescRel (a b : Tag) : Prop := b.score ≤ a.score

instance : DecidableRel scoreDescRel := fun a b =>
  inferInstanceAs (Decidable (b.score ≤ a.score))

/-- Tag construction loop of fetchLocalTags: every entry of the response
map becomes a Tag with category defaulted to general, then the list is
sorted by score descending. -/
def buildLocalTags (entries : List (String × ℚ)) : List Tag :=
  List.insertionSort scoreDescRel
    (entries.map (fun e => { name := e.1, score := e.2,
                             category := TagCategory.general }))

/-- fetchLocalTags: validate the tagger endpoint before any request,
then POST the image and decode the tags map; a transport failure or a
non-ok response throws. -/
def fetchLocalTags (config : BackendConfig)
    (net : FetchOutcome TaggerResponse) :
    Except String (List Tag) × List NetCall :=
  if isBlank config.taggerEndpoint then
    (Except.error "Local Tagger endpoint is invalid or missing.", [])
  else
    match net with
    | FetchOutcome.failure =>
        (Except.error "Local Tagger Error",
         [NetCall.taggerPost config.taggerEndpoint])
    | FetchOutcome.ok resp =>
        (Except.ok (buildLocalTags (resp.tags.getD [])),
         [NetCall.taggerPost config.taggerEndpoint])

/-- fetchOllamaDescription: validate the ollama endpoint before any
request, then POST the generate call and return the response string. -/
def fetchOllamaDescription (config : BackendConfig)
    (net : FetchOutcome String) :
    Except String String × List NetCall :=
  if isBlank config.ollamaEndpoint then
    (Except.error "Ollama endpoint is invalid or missing.", [])
  else
    match net with
    | FetchOutcome.failure =>
        (Except.error "Ollama Error",
         [NetCall.ollamaGenerate config.ollamaEndpoint])
    | FetchOutcome.ok s =>
        (Except.ok s, [NetCall.ollamaGenerate config.ollamaEndpoint])

/-- generateTagsLocalHybrid: run both branches with Promise.allSettled
semantics (each settles independently; neither outcome short-circuits
the other), take the tags of a fulfilled tagger branch (else the empty
list) and the description of a fulfilled ollama branch (else leave it
absent), throw only when both branches rejected. -/
def generateTagsLocalHybrid (config : BackendConfig)
    (taggerNet : FetchOutcome TaggerResponse)
    (ollamaNet : FetchOutcome String) :
    Except String InterrogationResult × List NetCall :=
  let tagsResult := fetchLocalTags config taggerNet
  let descriptionResult := fetchOllamaDescription config ollamaNet
  let calls := tagsResult.2 ++ descriptionResult.2
  let tags := match tagsResult.1 with
    | Except.ok v => v
    | Except.error _ => []
  let description := match descriptionResult.1 with
    | Except.ok v => some v
    | Except.error _ => none
  match tagsResult.1, descriptionResult.1 with
  | Except.error _, Except.error _ =>
      (Except.error "Both services failed.", calls)
  | _, _ =>
      (Except.ok { tags := tags, naturalDescription := description }, calls)

/-- Category enum of the Gemini response schema: the five values the
cloud model is allowed to emit. -/
def geminiSchemaCategories : List TagCategory :=
  [TagCategory.general, TagCategory.character, TagCategory.style,
   TagCategory.technical, TagCategory.rating]

/-- Decoded JSON payload of the Gemini response text: the code reads
data.tags and substitutes the empty list when the field is missing. -/
structure GeminiPayload where
  tags : Option (List Tag)
deriving DecidableEq, Repr

/-- Response handling of generateTagsGemini: a missing or empty
response text, a parse failure, or a missing tags field all degrade to
an empty tag list; otherwise the parsed tags pass through as they are.
The JSON.parse collaborator is passed explicitly as a partial parse
function. -/
def geminiResponseResult (text : Option String)
    (parseJson : String → Option GeminiPayload) : InterrogationResult :=
  match text with
  | none => { tags := [] }
  | some t =>
      if t = "" then { tags := [] }
      else
        match parseJson t with
        | none => { tags := [] }
        | some data => { tags := data.tags.getD [] }

/-- generateTagsGemini: getGeminiClient throws before any request when
the api key is missing; a transport or api failure of the call
propagates; otherwise the response text is handled by
geminiResponseResult. -/
def generateTagsGemini (config : BackendConfig)
    (net : FetchOutcome (Option String))
    (parseJson : String → Option GeminiPayload) :
    Except String InterrogationResult × List NetCall :=
  if config.geminiApiKey = "" then
    (Except.error
      "Gemini API Key is missing. Please enter it in the configuration panel.",
     [])
  else
    match net with
    | FetchOutcome.failure =>
        (Except.error "Gemini request failed", [NetCall.geminiGenerate])
    | FetchOutcome.ok text =>
        (Except.ok (geminiResponseResult text parseJson),
         [NetCall.geminiGenerate])

/-- generateTags: dispatch on the configured backend type; the switch
default routes to the Gemini strategy. -/
def generateTags (config : BackendConfig)
    (taggerNet : FetchOutcome TaggerResponse)
    (ollamaNet : FetchOutcome String)
    (geminiNet : FetchOutcome (Option String))
    (parseJson : String → Option GeminiPayload) :
    Except String InterrogationResult × List NetCall :=
  match config.type with
  | BackendType.local_hybrid =>
      generateTagsLocalHybrid config taggerNet ollamaNet
  | BackendType.gemini => generateTagsGemini config geminiNet parseJson

/-! ## Presentation pipeline (src/components/Results.tsx) -/

structure TaggingSettings where
  thresholds : TagCategory → Option ℚ
  topK : Nat
  randomize : Bool
  removeUnderscores : Bool

/-- Threshold the filter step actually compares against, embedding the
JavaScript expression settings.thresholds[tag.category] || 0.5: an
absent entry and a configured value of 0 are both falsy and yield 0.5. -/
def codeThreshold (thresholds : TagCategory → Option ℚ)
    (c : TagCategory) : ℚ :=
  match thresholds c with
  | some t => if t = 0 then mkRat 1 2 else t
  | none => mkRat 1 2

/-- Effective threshold in the words of the specification: the
configured value when the category has one, even when that value is 0,
and 0.5 otherwise. Stated for comparison with codeThreshold. -/
def effectiveThresholdSpec (thresholds : TagCategory → Option ℚ)
    (c : TagCategory) : ℚ :=
  (thresholds c).getD (mkRat 1 2)

/-- One swap of the shuffle loop, as an in-bounds array swap. -/
def swapAt {α : Type} (l : List α) (i j : Nat) : List α :=
  if hi : i < l.length then
    if hj : j < l.length then (l.set i l[j]).set j l[i] else l
  else l

/-- Fisher-Yates loop of the randomize step: for i from the last index
down to 1, swap position i with position rand i % (i + 1), the model of
Math.floor(Math.random() * (i + 1)) under the random source rand. -/
def fisherYatesAux {α : Type} (rand : Nat → Nat) : List α → Nat → List α
  | l, 0 => l
  | l, k + 1 => fisherYatesAux rand (swapAt l (k + 1) (rand (k + 1) % (k + 2))) k

def fisherYates {α : Type} (rand : Nat → Nat) (l : List α) : List α :=
  fisherYatesAux rand l (l.length - 1)

/-- processedTags of the Results component: filter by the category
threshold, sort by score descending, truncate to topK, and shuffle when
randomize is set. -/
def processedTags (result : InterrogationResult)
    (settings : TaggingSettings) (rand : Nat → Nat) : List Tag :=
  let filtered := result.tags.filter
    (fun tag => decide (codeThreshold settings.thresholds tag.category ≤ tag.score))
  let sorted := List.insertionSort scoreDescRel filtered
  let truncated := sorted.take settings.topK
  if settings.randomize then fisherYates rand truncated else truncated

/-- formatTag: replace underscores by spaces in the display name when
removeUnderscores is set. The replace with a one-character pattern and
global flag is modelled per character. -/
def formatTag (settings : TaggingSettings) (name : String) : String :=
  if settings.removeUnderscores then
    String.mk (name.data.map (fun c => if c = '_' then ' ' else c))
  else name

/-- tagString: the export string, the formatted display names of the
processed tags joined with a comma and a space. -/
def tagString (result : InterrogationResult) (settings : TaggingSettings)
    (rand : Nat → Nat) : String :=
  String.intercalate ", "
    ((processedTags result settings rand).map (fun t => formatTag settings t.name))

/-! ## Sample values used in concrete instantiations -/

/-- A hybrid configuration with both endpoints configured. -/
def cfgHybridValid : BackendConfig :=
  { type := BackendType.local_hybrid,
    taggerEndpoint := "http://localhost:8000/interrogate/pixai",
    ollamaEndpoint := "http://localhost:11434", ollamaModel := "qwen-vl" }

/-- A hybrid configuration whose tagger endpoint is missing while the
ollama endpoint is configured. -/
def cfgMissingTagger : BackendConfig :=
  { type := BackendType.local_hybrid, taggerEndpoint := "",
    ollamaEndpoint := "http://localhost:11434", ollamaModel := "qwen-vl" }

/-- A hybrid configuration with both endpoints missing. -/
def cfgAllMissing : BackendConfig :=
  { type := BackendType.local_hybrid }

/-- A cloud configuration with an api key. -/
def cfgGeminiValid : BackendConfig :=
  { type := BackendType.gemini, geminiApiKey := "k" }

def sampleResult : InterrogationResult :=
  { tags := [{ name := "a", score := mkRat 9 10,
               category := TagCategory.general }] }

def sampleSettings : TaggingSettings :=
  { thresholds := (fun _ => some (mkRat 2 5)), topK := 2,
    randomize := false, removeUnderscores := false }

def underscoreResult : InterrogationResult :=
  { tags := [{ name := "blue_hair", score := mkRat 9 10,
               category := TagCategory.general }] }

def underscoreSettings : TaggingSettings :=
  { thresholds := (fun _ => none), topK := 5, randomize := false,
    removeUnderscores := true }

/-! ## Helper lemmas -/

instance : IsTotal Tag scoreDescRel :=
  ⟨fun a b => le_total b.score a.score⟩

instance : IsTrans Tag scoreDescRel :=
  ⟨fun _ _ _ hab hbc => le_trans hbc hab⟩

theorem swapAt_perm {α : Type} [DecidableEq α] (l : List α) (i j : Nat) :
    (swapAt l i j).Perm l := by
  rw [swapAt]
  by_cases hi : i < l.length
  · rw [dif_pos hi]
    by_cases hj : j < l.length
    · rw [dif_pos hj]
      have hj2 : j < (l.set i l[j]).length := by simpa using hj
      rw [List.perm_iff_count]
      intro x
      rw [List.count_set _ _ _ _ hj2, List.count_set _ _ _ _ hi]
      have hAle : (if (l[i] == x) = true then 1 else 0) ≤ List.count x l := by
        split
        · have hx2 : l[i] = x := by simpa using (by assumption : (l[i] == x) = true)
          exact List.count_pos_iff.mpr (hx2 ▸ List.getElem_mem hi)
        · exact Nat.zero_le _
      by_cases hij : i = j
      · subst hij
        have hmi : (l.set i l[i])[i] = l[i] := by
          rw [List.getElem_set, if_pos rfl]
        rw [hmi]
        omega
      · have hmi : (l.set i l[j])[j] = l[j] := by
          rw [List.getElem_set, if_neg hij]
        rw [hmi]
        omega
    · rw [dif_neg hj]
  · rw [dif_neg hi]

theorem fisherYatesAux_perm {α : Type} [DecidableEq α] (rand : Nat → Nat) :
    ∀ (k : Nat) (l : List α), (fisherYatesAux rand l k).Perm l
  | 0, l => List.Perm.refl l
  | k + 1, l =>
      (fisherYatesAux_perm rand k
        (swapAt l (k + 1) (rand (k + 1) % (k + 2)))).trans
        (swapAt_perm l (k + 1) (rand (k + 1) % (k + 2)))

theorem fisherYates_perm {α : Type} [DecidableEq α] (rand : Nat → Nat)
    (l : List α) : (fisherYates rand l).Perm l :=
  fisherYatesAux_perm rand (l.length - 1) l

/-- The threshold named by the specification never exceeds the threshold
the code compares against: they agree except when the configured value
is 0, where the code falls back to 0.5. -/
theorem effectiveThresholdSpec_le_codeThreshold
    (thresholds : TagCategory → Option ℚ) (c : TagCategory) :
    effectiveThresholdSpec thresholds c ≤ codeThreshold thresholds c := by
  unfold effectiveThresholdSpec codeThreshold
  cases h : thresholds c with
  | none => simp
  | some t =>
      simp only [Option.getD_some]
      by_cases h0 : t = 0
      · rw [if_pos h0, h0]
        decide
      · rw [if_neg h0]

/-- Every tag of the pipeline output already passed the filter step. -/
theorem mem_filter_of_mem_processedTags {result : InterrogationResult}
    {settings : TaggingSettings} {rand : Nat → Nat} {t : Tag}
    (ht : t ∈ processedTags result settings rand) :
    t ∈ result.tags.filter (fun tag =>
      decide (codeThreshold settings.thresholds tag.category ≤ tag.score)) := by
  simp only [processedTags] at ht
  split at ht
  · exact (List.perm_insertionSort scoreDescRel _).subset
      ((List.take_sublist _ _).subset ((fisherYates_perm rand _).subset ht))
  · exact (List.perm_insertionSort scoreDescRel _).subset
      ((List.take_sublist _ _).subset ht)

/-- The pipeline output has the length of the truncated sorted filter
result, whether or not the shuffle runs. -/
theorem processedTags_length_eq (result : InterrogationResult)
    (settings : TaggingSettings) (rand : Nat → Nat) :
    (processedTags result settings rand).length =
      ((List.insertionSort scoreDescRel (result.tags.filter (fun tag =>
          decide (codeThreshold settings.thresholds tag.category ≤ tag.score)))).take
        settings.topK).length := by
  simp only [processedTags]
  split
  · exact (fisherYates_perm rand _).length_eq
  · rfl

/-! ## Claims -/

/-- C1 (amended): tags of the local hybrid path always carry category
general, one of the six values; their scores are the backend scores
unvalidated, so they lie in the unit interval exactly when the backend
reported scores in the unit interval; the cloud path passes parsed tags
through unvalidated, its schema enum being the five values general,
character, style, technical, rating, of which style and technical lie
outside the six values of the data model. -/
theorem produced_tag_invariants :
    (∀ (entries : List (String × ℚ)),
       (∀ p ∈ entries, 0 ≤ p.2 ∧ p.2 ≤ 1) →
       ∀ t ∈ buildLocalTags entries,
         (0 ≤ t.score ∧ t.score ≤ 1) ∧ t.category ∈ sixCategories) ∧
    (∀ (config : BackendConfig) (net : FetchOutcome (Option String))
       (parseJson : String → Option GeminiPayload),
       (∀ s payload, parseJson s = some payload →
          ∀ t ∈ payload.tags.getD [],
            (0 ≤ t.score ∧ t.score ≤ 1) ∧ t.category ∈ geminiSchemaCategories) →
       ∀ r calls, generateTagsGemini config net parseJson = (Except.ok r, calls) →
       ∀ t ∈ r.tags,
         (0 ≤ t.score ∧ t.score ≤ 1) ∧ t.category ∈ geminiSchemaCategories) ∧
    (TagCategory.style ∈ geminiSchemaCategories ∧
     TagCategory.style ∉ sixCategories ∧
     TagCategory.technical ∈ geminiSchemaCategories ∧
     TagCategory.technical ∉ sixCategories) := by
  refine ⟨?_, ?_, by decide, by decide, by decide, by decide⟩
  · intro entries hscores t ht
    have ht2 := (List.perm_insertionSort scoreDescRel _).subset ht
    obtain ⟨p, hp, hpt⟩ := List.mem_map.mp ht2
    have hs := hscores p hp
    constructor
    · rw [← hpt]
      exact hs
    · rw [← hpt]
      exact (by decide : TagCategory.general ∈ sixCategories)
  · intro config net parseJson hparse r calls heq t ht
    unfold generateTagsGemini at heq
    by_cases hkey : config.geminiApiKey = ""
    · rw [if_pos hkey] at heq
      exact absurd (congrArg Prod.fst heq) (fun h => Except.noConfusion h)
    · rw [if_neg hkey] at heq
      cases net with
      | failure => exact absurd (congrArg Prod.fst heq) (fun h => Except.noConfusion h)
      | ok text =>
          have hr : r = geminiResponseResult text parseJson :=
            (Except.ok.inj (congrArg Prod.fst heq)).symm
          rw [hr] at ht
          cases text with
          | none => simp [geminiResponseResult] at ht
          | some s =>
              by_cases hs : s = ""
              · rw [hs] at ht
                simp [geminiResponseResult] at ht
              · simp only [geminiResponseResult] at ht
                rw [if_neg hs] at ht
                cases hps : parseJson s with
                | none =>
                    rw [hps] at ht
                    exact (List.not_mem_nil t ht).elim
                | some payload =>
                    rw [hps] at ht
                    exact hparse s payload hps t ht

/-- C1 witness: a backend score of 0.97 yields a produced tag whose score
lies in the unit interval and whose category is among the six. -/
theorem produced_tag_invariants_witness :
    (0 ≤ mkRat 97 100 ∧ mkRat 97 100 ≤ 1) ∧
      TagCategory.general ∈ sixCategories :=
  produced_tag_invariants.1 [("1girl", mkRat 97 100)] (by decide)
    { name := "1girl", score := mkRat 97 100, category := TagCategory.general }
    (by decide)

/-- C1 counterexample: a tagger response entry with confidence 3/2 flows
through the hybrid strategy into a produced tag whose score exceeds 1,
so produced tags do not always have scores in the unit interval. -/
theorem produced_tag_invariants_counterexample :
    (generateTagsLocalHybrid cfgHybridValid
        (FetchOutcome.ok { tags := some [("x", mkRat 3 2)] })
        FetchOutcome.failure).1 =
      Except.ok { tags := [{ name := "x", score := mkRat 3 2,
                             category := TagCategory.general }],
                  naturalDescription := none } ∧
    ¬ (mkRat 3 2 ≤ 1) :=
  ⟨by decide, by decide⟩

/-- C2 (amended): validation is per call site. The cloud path fails with
the configuration error naming the api key before any network call when
the key is missing; each hybrid branch fails with the error naming its
own endpoint before its network call when that endpoint is blank; and
only when both hybrid endpoints are blank does the hybrid interrogation
fail before any network call, with the generic error that both services
failed. A single blank hybrid field does not fail the interrogation and
does not stop the network call of the other branch. -/
theorem config_validation (config : BackendConfig) :
    (config.geminiApiKey = "" →
       ∀ net parseJson, generateTagsGemini config net parseJson =
         (Except.error
           "Gemini API Key is missing. Please enter it in the configuration panel.",
          [])) ∧
    (isBlank config.taggerEndpoint = true →
       ∀ net, fetchLocalTags config net =
         (Except.error "Local Tagger endpoint is invalid or missing.", [])) ∧
    (isBlank config.ollamaEndpoint = true →
       ∀ net, fetchOllamaDescription config net =
         (Except.error "Ollama endpoint is invalid or missing.", [])) ∧
    (isBlank config.taggerEndpoint = true →
       isBlank config.ollamaEndpoint = true →
       ∀ tNet oNet, generateTagsLocalHybrid config tNet oNet =
         (Except.error "Both services failed.", [])) := by
  refine ⟨?_, ?_, ?_, ?_⟩
  · intro h net parseJson
    simp [generateTagsGemini, h]
  · intro h net
    simp [fetchLocalTags, h]
  · intro h net
    simp [fetchOllamaDescription, h]
  · intro h1 h2 tNet oNet
    simp [generateTagsLocalHybrid, fetchLocalTags, fetchOllamaDescription, h1, h2]

/-- C2 witness: with every field blank, each branch and the joined
hybrid operation fail before any network call. -/
theorem config_validation_witness :
    fetchLocalTags cfgAllMissing FetchOutcome.failure =
      (Except.error "Local Tagger endpoint is invalid or missing.", []) ∧
    generateTagsLocalHybrid cfgAllMissing FetchOutcome.failure
        FetchOutcome.failure =
      (Except.error "Both services failed.", []) := by
  have h := config_validation cfgAllMissing
  exact ⟨h.2.1 (by decide) _, h.2.2.2 (by decide) (by decide) _ _⟩

/-- C2 counterexample: with the tagger endpoint blank and the ollama
endpoint configured, the hybrid interrogation does not fail (it returns
a result without tags) and the ollama network call is issued, against
the claim that the operation fails before any network call with an
error naming the missing field. -/
theorem config_validation_counterexample :
    (generateTagsLocalHybrid cfgMissingTagger FetchOutcome.failure
        (FetchOutcome.ok "a description")).1 =
      Except.ok { tags := [], naturalDescription := some "a description" } ∧
    (generateTagsLocalHybrid cfgMissingTagger FetchOutcome.failure
        (FetchOutcome.ok "a description")).2 =
      [NetCall.ollamaGenerate "http://localhost:11434"] :=
  ⟨by decide, by decide⟩

/-- C3 (amended): a failed load is never raised to callers, it leaves
the state unchanged (so the database stays empty after a failed first
load) and every lookup on the empty database falls through to the
heuristics; however the isLoaded flag stays false, so a later
loadTagDatabase call retries the fetch. -/
theorem load_failure_swallowed :
    (∀ st net, ∃ st2, loadTagDatabase st net = Except.ok st2) ∧
    (∀ st, st.isLoaded = false →
       loadTagDatabase st none = Except.ok st) ∧
    (∀ name, getCategory initialTagServiceState name = heuristicCategory name) := by
  refine ⟨?_, ?_, fun _ => rfl⟩
  · intro st net
    unfold loadTagDatabase
    by_cases h : st.isLoaded
    · exact ⟨st, by rw [if_pos h]⟩
    · cases net with
      | none => exact ⟨st, by rw [if_neg h]; rfl⟩
      | some text => exact ⟨_, by rw [if_neg h]; rfl⟩
  · intro st h
    unfold loadTagDatabase
    rw [if_neg (by rw [h]; exact Bool.false_ne_true)]
    rfl

/-- C3 witness: the initial state is not loaded, a failed load returns
it unchanged, and the unloaded lookup of a sample name is the heuristic
answer. -/
theorem load_failure_swallowed_witness :
    loadTagDatabase initialTagServiceState none =
      Except.ok initialTagServiceState ∧
    getCategory initialTagServiceState "1girl" = heuristicCategory "1girl" := by
  have h := load_failure_swallowed
  exact ⟨h.2.1 initialTagServiceState rfl, h.2.2 "1girl"⟩

/-- C3 counterexample: after a failed load the isLoaded flag is still
false, so a second loadTagDatabase call retries and populates the
database, against the claim that it stays empty permanently with no
retry. -/
theorem load_failure_swallowed_counterexample :
    loadTagDatabase initialTagServiceState none =
      Except.ok initialTagServiceState ∧
    loadTagDatabase initialTagServiceState (some "1girl,0,1234,alias") =
      Except.ok { tagDatabase := [("1girl", TagCategory.general)],
                  isLoaded := true } ∧
    ([("1girl", TagCategory.general)] : List (String × TagCategory)) ≠ [] :=
  ⟨by decide, by decide, by decide⟩

/-- C4: every tag of the pipeline output scores at least the effective
threshold in the sense of the specification, the configured value of its
category (even a configured 0) or 0.5 when none is configured. -/
theorem output_score_meets_spec_threshold (result : InterrogationResult)
    (settings : TaggingSettings) (rand : Nat → Nat) (t : Tag)
    (ht : t ∈ processedTags result settings rand) :
    effectiveThresholdSpec settings.thresholds t.category ≤ t.score := by
  have h := (List.mem_filter.mp (mem_filter_of_mem_processedTags ht)).2
  exact le_trans (effectiveThresholdSpec_le_codeThreshold _ _)
    (of_decide_eq_true h)

/-- C4 witness: with a configured threshold of 2/5 the surviving sample
tag scores at least the effective threshold. -/
theorem output_score_meets_spec_threshold_witness :
    effectiveThresholdSpec sampleSettings.thresholds TagCategory.general ≤
      mkRat 9 10 :=
  output_score_meets_spec_threshold sampleResult sampleSettings (fun _ => 0)
    { name := "a", score := mkRat 9 10, category := TagCategory.general }
    (by decide)

/-- C5: the hybrid join has independent-failure semantics: both branches
fulfilled yields the tagger tags (each with category general, sorted by
score descending) together with the description; exactly one branch
fulfilled yields only that branch of the data with no error; both
branches rejected raises the total-failure error. -/
theorem hybrid_join_semantics (config : BackendConfig)
    (taggerNet : FetchOutcome TaggerResponse) (ollamaNet : FetchOutcome String)
    (htv : isBlank config.taggerEndpoint = false)
    (hov : isBlank config.ollamaEndpoint = false) :
    (∀ resp desc, taggerNet = FetchOutcome.ok resp →
       ollamaNet = FetchOutcome.ok desc →
       generateTagsLocalHybrid config taggerNet ollamaNet =
         (Except.ok { tags := buildLocalTags (resp.tags.getD []),
                      naturalDescription := some desc },
          [NetCall.taggerPost config.taggerEndpoint,
           NetCall.ollamaGenerate config.ollamaEndpoint])) ∧
    (∀ resp, taggerNet = FetchOutcome.ok resp →
       ollamaNet = FetchOutcome.failure →
       (generateTagsLocalHybrid config taggerNet ollamaNet).1 =
         Except.ok { tags := buildLocalTags (resp.tags.getD []),
                     naturalDescription := none }) ∧
    (∀ desc, taggerNet = FetchOutcome.failure →
       ollamaNet = FetchOutcome.ok desc →
       (generateTagsLocalHybrid config taggerNet ollamaNet).1 =
         Except.ok { tags := [], naturalDescription := some desc }) ∧
    (taggerNet = FetchOutcome.failure → ollamaNet = FetchOutcome.failure →
       (generateTagsLocalHybrid config taggerNet ollamaNet).1 =
         Except.error "Both services failed.") ∧
    (∀ entries, (∀ t ∈ buildLocalTags entries,
        t.category = TagCategory.general) ∧
      List.Pairwise scoreDescRel (buildLocalTags entries)) := by
  refine ⟨?_, ?_, ?_, ?_, ?_⟩
  · intro resp desc h1 h2
    subst h1; subst h2
    simp [generateTagsLocalHybrid, fetchLocalTags, fetchOllamaDescription, htv, hov]
  · intro resp h1 h2
    subst h1; subst h2
    simp [generateTagsLocalHybrid, fetchLocalTags, fetchOllamaDescription, htv, hov]
  · intro desc h1 h2
    subst h1; subst h2
    simp [generateTagsLocalHybrid, fetchLocalTags, fetchOllamaDescription, htv, hov]
  · intro h1 h2
    subst h1; subst h2
    simp [generateTagsLocalHybrid, fetchLocalTags, fetchOllamaDescription, htv, hov]
  · intro entries
    constructor
    · intro t ht
      have ht2 := (List.perm_insertionSort scoreDescRel _).subset ht
      obtain ⟨p, _, hpt⟩ := List.mem_map.mp ht2
      rw [← hpt]
    · exact List.sorted_insertionSort scoreDescRel _

/-- C5 witness: the partial case of the specification: the tagger
resolves the single 0.97 entry, the captioner fails, and the result is
that tag alone with category general and no description, with no error
raised. -/
theorem hybrid_join_semantics_witness :
    (generateTagsLocalHybrid cfgHybridValid
        (FetchOutcome.ok { tags := some [("1girl", mkRat 97 100)] })
        FetchOutcome.failure).1 =
      Except.ok { tags := [{ name := "1girl", score := mkRat 97 100,
                             category := TagCategory.general }],
                  naturalDescription := none } := by
  have h := (hybrid_join_semantics cfgHybridValid
    (FetchOutcome.ok { tags := some [("1girl", mkRat 97 100)] })
    FetchOutcome.failure (by decide) (by decide)).2.1
    { tags := some [("1girl", mkRat 97 100)] } rfl rfl
  rw [h]
  decide

/-- C6: on the cloud strategy any response payload that fails to parse,
the empty response text or a missing text included, degrades to an
interrogation result with no tags instead of an error. -/
theorem gemini_parse_failure_degrades (config : BackendConfig)
    (parseJson : String → Option GeminiPayload) (text : Option String)
    (hkey : config.geminiApiKey ≠ "")
    (hbad : text = none ∨ text = some "" ∨
      (∀ s, text = some s → parseJson s = none)) :
    (generateTagsGemini config (FetchOutcome.ok text) parseJson).1 =
      Except.ok { tags := [], naturalDescription := none } := by
  unfold generateTagsGemini
  rw [if_neg hkey]
  rcases hbad with h | h | h
  · rw [h]
    rfl
  · rw [h]
    rfl
  · cases text with
    | none => rfl
    | some s =>
        by_cases hs : s = ""
        · rw [hs]
          rfl
        · have h2 : geminiResponseResult (some s) parseJson =
              { tags := [], naturalDescription := none } := by
            simp only [geminiResponseResult]
            rw [if_neg hs, h s rfl]
          show Except.ok (geminiResponseResult (some s) parseJson) = _
          rw [h2]

/-- C6 witness: a missing response text yields the empty result. -/
theorem gemini_parse_failure_degrades_witness :
    (generateTagsGemini cfgGeminiValid (FetchOutcome.ok none)
        (fun _ => none)).1 =
      Except.ok { tags := [], naturalDescription := none } :=
  gemini_parse_failure_degrades cfgGeminiValid (fun _ => none) none
    (by decide) (Or.inl rfl)

/-- C7: on the same inputs, the pipeline output with randomize set is a
permutation of the output with randomize unset: the shuffle reorders the
truncated sequence and never changes which tags survive. -/
theorem randomize_output_is_permutation (result : InterrogationResult)
    (thresholds : TagCategory → Option ℚ) (topK : Nat) (ru : Bool)
    (rand : Nat → Nat) :
    (processedTags result
        { thresholds := thresholds, topK := topK, randomize := true,
          removeUnderscores := ru } rand).Perm
      (processedTags result
        { thresholds := thresholds, topK := topK, randomize := false,
          removeUnderscores := ru } rand) :=
  fisherYates_perm rand _

/-- C8: the pipeline output length is at most the minimum of topK and
the number of input tags scoring at least the effective threshold of
their category in the sense of the specification. -/
theorem output_length_bounded (result : InterrogationResult)
    (settings : TaggingSettings) (rand : Nat → Nat) :
    (processedTags result settings rand).length ≤
      min settings.topK
        (result.tags.filter (fun t =>
          decide (effectiveThresholdSpec settings.thresholds t.category ≤
            t.score))).length := by
  rw [processedTags_length_eq result settings rand, List.length_take,
    (List.perm_insertionSort scoreDescRel _).length_eq]
  refine min_le_min (le_refl _) ?_
  refine List.Sublist.length_le (List.monotone_filter_right _ ?_)
  intro a h
  exact decide_eq_true (le_trans
    (effectiveThresholdSpec_le_codeThreshold settings.thresholds a.category)
    (of_decide_eq_true h))

/-- C9: with removeUnderscores set, underscores become spaces only in
the display names and the export string; the tags of the pipeline output
are tags of the input result, their stored canonical names unaltered. -/
theorem underscores_display_only (result : InterrogationResult)
    (settings : TaggingSettings) (rand : Nat → Nat)
    (hru : settings.removeUnderscores = true) :
    (∀ t ∈ processedTags result settings rand, t ∈ result.tags) ∧
    tagString result settings rand =
      String.intercalate ", " ((processedTags result settings rand).map
        (fun t => String.mk (t.name.data.map
          (fun c => if c = '_' then ' ' else c)))) := by
  constructor
  · intro t ht
    exact (List.filter_sublist _).subset (mem_filter_of_mem_processedTags ht)
  · unfold tagString
    simp [formatTag, hru]

/-- C9 witness: the stored tag keeps its underscored canonical name
while the export string carries the space-formatted display name. -/
theorem underscores_display_only_witness :
    ({ name := "blue_hair", score := mkRat 9 10,
       category := TagCategory.general } : Tag) ∈ underscoreResult.tags ∧
    tagString underscoreResult underscoreSettings (fun _ => 0) =
      "blue hair" := by
  have h := underscores_display_only underscoreResult underscoreSettings
    (fun _ => 0) rfl
  exact ⟨h.1 _ (by decide), h.2.trans (by decide)⟩

/-- C10: the bare name general, when absent from the tag database, is
classified as rating by the heuristic, because general is one of the
fixed rating tokens. -/
theorem bare_general_heuristic_rating (st : TagServiceState)
    (h : mapGet st.tagDatabase "general" = none) :
    getCategory st "general" = TagCategory.rating := by
  unfold getCategory
  rw [h]
  decide

/-- C10 witness: on the empty database the bare name general resolves
to rating. -/
theorem bare_general_heuristic_rating_witness :
    getCategory initialTagServiceState "general" = TagCategory.rating :=
  bare_general_heuristic_rating initialTagServiceState rfl

end Farterrogator
